import Mathlib

/-!
Shallow embedding of the core numeric pipeline of the `ztrade` trading
platform, together with proofs checking the natural-language specification
against it.  Python floats are modelled as exact rationals (`ℚ`), Python
`int` values as `ℤ`, dictionaries keyed by symbol as association lists, and
Python exceptions as `Except` results.
-/

namespace ZTrade

/-! ## Numeric helpers shared by several modules -/

/-- Python `int(x)` applied to a float: truncation toward zero. -/
def pyInt (q : ℚ) : ℤ := if 0 ≤ q then ⌊q⌋ else -⌊-q⌋

/-- Round a rational to the nearest integer, ties to the even integer.
This is the rounding used by Python's builtin `round`. -/
def rhe (q : ℚ) : ℤ :=
  let f := ⌊q⌋
  let r := q - f
  if r < 1/2 then f
  else if 1/2 < r then f + 1
  else if f % 2 = 0 then f else f + 1

/-- Python `round(x, nd)` on the rational model of floats. -/
def pyRound (nd : ℕ) (q : ℚ) : ℚ := (rhe (q * (10 : ℚ) ^ nd) : ℚ) / (10 : ℚ) ^ nd

/-- Left-pad the decimal rendering of a natural number with zeros to `w` digits. -/
def padNat (w : ℕ) (n : ℕ) : String :=
  let s := toString n
  String.mk (List.replicate (w - s.length) '0') ++ s

/-- Python fixed-point float formatting with `nd` decimal places, as in
format specs like `.2f` (round half to even on the exact value). -/
def formatFixed (nd : ℕ) (q : ℚ) : String :=
  let scaled := (rhe (q * (10 : ℚ) ^ nd)).natAbs
  let sign := if q < 0 then "-" else ""
  if nd = 0 then sign ++ toString scaled
  else sign ++ toString (scaled / 10 ^ nd) ++ "." ++ padNat nd (scaled % 10 ^ nd)

/-- Python `+.2f` formatting: an explicit sign followed by two decimals. -/
def formatSigned2 (q : ℚ) : String :=
  if q < 0 then formatFixed 2 q else "+" ++ formatFixed 2 q

/-- Python percent formatting with `nd` decimal places, as in `.0%` / `.1%`. -/
def formatPercent (nd : ℕ) (q : ℚ) : String := formatFixed nd (q * 100) ++ "%"

/-- Python `str.capitalize` restricted to the lowercase words it is applied to. -/
def pyCapitalize (s : String) : String :=
  match s.data with
  | [] => ""
  | c :: cs => String.mk (c.toUpper :: cs)

/-- Python `str.lower` (per-character lowercasing, written over the character
list so that it reduces). -/
def pyLower (s : String) : String := String.mk (s.data.map Char.toLower)

/-! ## `ztrade/decision/algorithmic.py` — AlgorithmicDecisionMaker -/

/-- Strong bullish signal threshold (`BUY_THRESHOLD`). -/
def BUY_THRESHOLD : ℚ := 3/10

/-- Strong bearish signal threshold (`SELL_THRESHOLD`). -/
def SELL_THRESHOLD : ℚ := -3/10

/-- Weak signal zone (`NEUTRAL_ZONE`). -/
def NEUTRAL_ZONE : ℚ := 15/100

/-- Confidence bound for 100% of max position size (`CONFIDENCE_HIGH`). -/
def CONFIDENCE_HIGH : ℚ := 85/100

/-- Confidence bound for 75% of max position size (`CONFIDENCE_MEDIUM`). -/
def CONFIDENCE_MEDIUM : ℚ := 75/100

/-- Confidence bound for 50% of max position size (`CONFIDENCE_LOW`). -/
def CONFIDENCE_LOW : ℚ := 65/100

/-- The Python exceptions reachable in the modelled decision path. -/
inductive PyExc where
  | zeroDivision
  | valueError
deriving DecidableEq, Repr

/-- The risk parameters `make_decision` reads from `agent_config['risk']`
(with their documented defaults supplied by the caller). -/
structure RiskConfig where
  maxPositionSize : ℚ
  stopLoss : ℚ
  minConfidence : ℚ
deriving DecidableEq, Repr

/-- The decision dictionary returned by `AlgorithmicDecisionMaker`. -/
structure Decision where
  decision : String
  quantity : ℤ
  rationale : String
  confidence : ℚ
  stopLoss : Option ℚ := none
deriving DecidableEq, Repr

/-- Model of `AlgorithmicDecisionMaker._technical_to_score`. -/
def technicalToScore (signal : String) : ℚ :=
  let signalLower := pyLower signal
  if signalLower = "bullish" then 1
  else if signalLower = "bearish" then -1
  else 0

/-- The confidence-banded dollar budget of
`AlgorithmicDecisionMaker._calculate_position_size`: 100% of the max position
at confidence ≥ 0.85, 75% at ≥ 0.75, else 50%. -/
def positionBudget (confidence maxPositionSize : ℚ) : ℚ :=
  if confidence ≥ CONFIDENCE_HIGH then maxPositionSize
  else if confidence ≥ CONFIDENCE_MEDIUM then maxPositionSize * (75/100)
  else maxPositionSize * (50/100)

/-- Model of `AlgorithmicDecisionMaker._calculate_position_size`.  Dividing by a zero
price raises `ZeroDivisionError` in Python, modelled as an `Except` error. -/
def calculatePositionSize (confidence currentPrice maxPositionSize : ℚ) :
    Except PyExc ℤ :=
  let positionSize := positionBudget confidence maxPositionSize
  if currentPrice = 0 then .error .zeroDivision
  else .ok (max 1 (pyInt (positionSize / currentPrice)))

/-- Model of `AlgorithmicDecisionMaker._make_decision_from_score`. -/
def makeDecisionFromScore (combinedScore combinedConfidence minConfidence
    currentPrice maxPositionSize stopLossPct sentimentScore : ℚ)
    (technicalSignal : String) : Except PyExc Decision :=
  if combinedConfidence < minConfidence then
    .ok { decision := "hold", quantity := 0,
          rationale := "Combined confidence (" ++ formatPercent 1 combinedConfidence ++
            ") below minimum threshold (" ++ formatPercent 0 minConfidence ++
            "). Waiting for higher conviction signal.",
          confidence := combinedConfidence }
  else if combinedScore > BUY_THRESHOLD then
    (calculatePositionSize combinedConfidence currentPrice maxPositionSize).map
      fun quantity =>
        { decision := "buy", quantity := quantity,
          rationale := "Strong bullish signal: combined_score=" ++
            formatFixed 2 combinedScore ++ " (sentiment: " ++
            formatSigned2 sentimentScore ++ ", technical: " ++ technicalSignal ++
            "). Confidence " ++ formatPercent 0 combinedConfidence ++
            " exceeds threshold. Entering position with " ++
            formatPercent 1 stopLossPct ++ " stop loss.",
          confidence := combinedConfidence,
          stopLoss := some (pyRound 2 (currentPrice * (1 - stopLossPct))) }
  else if combinedScore < SELL_THRESHOLD then
    .ok { decision := "hold", quantity := 0,
          rationale := "Strong bearish signal: combined_score=" ++
            formatFixed 2 combinedScore ++ " (sentiment: " ++
            formatSigned2 sentimentScore ++ ", technical: " ++ technicalSignal ++
            "). Not entering position in bearish conditions. " ++
            "Currently only trading long positions.",
          confidence := combinedConfidence }
  else
    let signalStrength := if |combinedScore| < NEUTRAL_ZONE then "weak" else "moderate"
    let direction :=
      if combinedScore > 0 then "bullish"
      else if combinedScore < 0 then "bearish"
      else "neutral"
    .ok { decision := "hold", quantity := 0,
          rationale := pyCapitalize signalStrength ++ " " ++ direction ++
            " signal: combined_score=" ++ formatFixed 2 combinedScore ++
            " (sentiment: " ++ formatSigned2 sentimentScore ++ ", technical: " ++
            technicalSignal ++ "). Waiting for stronger conviction (threshold: ±0.3).",
          confidence := combinedConfidence }

/-- Model of `AlgorithmicDecisionMaker.make_decision` with weights `sentimentWeight` /
`technicalWeight` (constructor defaults 0.6 / 0.4). -/
def makeDecision (sentimentWeight technicalWeight sentimentScore sentimentConfidence : ℚ)
    (technicalSignal : String) (technicalConfidence currentPrice : ℚ)
    (risk : RiskConfig) : Except PyExc Decision :=
  let technicalScore := technicalToScore technicalSignal
  let combinedScore :=
    sentimentScore * sentimentWeight + technicalScore * technicalWeight
  let combinedConfidence :=
    sentimentConfidence * sentimentWeight + technicalConfidence * technicalWeight
  makeDecisionFromScore combinedScore combinedConfidence risk.minConfidence
    currentPrice risk.maxPositionSize risk.stopLoss sentimentScore technicalSignal

/-- The default risk parameters used by `make_decision` when
`agent_config['risk']` omits them, and by the repository's test fixture. -/
def defaultRisk : RiskConfig := ⟨5000, 3/100, 65/100⟩

/-! ## Trend analysis (`_analyze_trend` in its three copies) -/

/-- A market bar as carried in the provider / backtest bar dictionaries. -/
structure Bar where
  openPrice : ℚ
  high : ℚ
  low : ℚ
  close : ℚ
  volume : ℤ
deriving DecidableEq, Repr

/-- The dictionary returned by `_analyze_trend`; `changePct` is `none` in the
too-few-bars case, where the `change_pct` key is absent. -/
structure TrendAnalysis where
  trend : String
  strength : ℚ
  changePct : Option ℚ
deriving DecidableEq, Repr

/-- Python `xs[-n:]`: the last `n` elements of a list (all of it when `n` is
at least the length). -/
def takeLast (n : ℕ) (l : List α) : List α := l.drop (l.length - n)

/-- Model of `BacktestEngine._analyze_trend` (`src/cli/utils/backtesting_engine.py`,
lines 606-642): quarter comparison over the most recent `min(len, 100)`
closes with ±1% thresholds. -/
def btAnalyzeTrend (bars : List Bar) : TrendAnalysis :=
  if bars.length < 20 then ⟨"unknown", 0, none⟩
  else
    let closes := bars.map Bar.close
    let lookback := min closes.length 100
    let recentCloses := closes.drop (closes.length - lookback)
    let quarterSize := lookback / 4
    let firstQuarterAvg := (recentCloses.take quarterSize).sum / (quarterSize : ℚ)
    let lastQuarterAvg :=
      (recentCloses.drop (recentCloses.length - quarterSize)).sum / (quarterSize : ℚ)
    let changePct := (lastQuarterAvg - firstQuarterAvg) / firstQuarterAvg * 100
    if changePct > 1 then
      ⟨"bullish", pyRound 2 (min (|changePct| / 5) 1), some (pyRound 2 changePct)⟩
    else if changePct < -1 then
      ⟨"bearish", pyRound 2 (min (|changePct| / 5) 1), some (pyRound 2 changePct)⟩
    else
      ⟨"sideways", pyRound 2 (1/2), some (pyRound 2 changePct)⟩

/-- Model of `MarketDataProvider._analyze_trend`, identical in `src/ztrade/market_data.py`
(lines 288-316) and `src/cli/utils/market_data.py` (lines 154-182): half
comparison over the last 10 closes with ±2% thresholds. -/
def providerAnalyzeTrend (bars : List Bar) : TrendAnalysis :=
  if bars.length < 10 then ⟨"unknown", 0, none⟩
  else
    let closes := bars.map Bar.close
    let recentCloses := closes.drop (closes.length - 10)
    let firstHalfAvg := (recentCloses.take 5).sum / 5
    let secondHalfAvg := (recentCloses.drop 5).sum / 5
    let changePct := (secondHalfAvg - firstHalfAvg) / firstHalfAvg * 100
    if changePct > 2 then
      ⟨"bullish", pyRound 2 (min (|changePct| / 5) 1), some (pyRound 2 changePct)⟩
    else if changePct < -2 then
      ⟨"bearish", pyRound 2 (min (|changePct| / 5) 1), some (pyRound 2 changePct)⟩
    else
      ⟨"sideways", pyRound 2 (1/2), some (pyRound 2 changePct)⟩

/-- The trend computation exactly as claim C3 words it: over the most recent
`min(len, 100)` bars compare the mean close of the first quarter against the
mean close of the last quarter; the percent change is labelled bullish above
+1%, bearish below −1%, else sideways; strength is `min(|pct| / 5, 1)`. -/
def specTrendClaim (bars : List Bar) : TrendAnalysis :=
  let lookback := min bars.length 100
  let recent := takeLast lookback (bars.map Bar.close)
  let quarter := lookback / 4
  let firstMean := (recent.take quarter).sum / (quarter : ℚ)
  let lastMean := (takeLast quarter recent).sum / (quarter : ℚ)
  let pct := (lastMean - firstMean) / firstMean * 100
  if pct > 1 then ⟨"bullish", min (|pct| / 5) 1, some pct⟩
  else if pct < -1 then ⟨"bearish", min (|pct| / 5) 1, some pct⟩
  else ⟨"sideways", min (|pct| / 5) 1, some pct⟩

/-- The percent change the provider variant branches on: mean of the first
five of the last ten closes against the mean of the last five. -/
def halvesChangePct (closes : List ℚ) : ℚ :=
  let recent := takeLast 10 closes
  ((recent.drop 5).sum / 5 - (recent.take 5).sum / 5) / ((recent.take 5).sum / 5) * 100

/-- Ten bars whose closes step from 100 to 102 at the halfway point: a +2%
move between the two halves. -/
def demoTrendBars : List Bar :=
  [⟨100, 100, 100, 100, 0⟩, ⟨100, 100, 100, 100, 0⟩, ⟨100, 100, 100, 100, 0⟩,
   ⟨100, 100, 100, 100, 0⟩, ⟨100, 100, 100, 100, 0⟩, ⟨100, 103, 100, 102, 0⟩,
   ⟨100, 103, 100, 102, 0⟩, ⟨100, 103, 100, 102, 0⟩, ⟨100, 103, 100, 102, 0⟩,
   ⟨100, 103, 100, 102, 0⟩]

/-- Twenty bars whose closes step from 100 up to 102 after the first five. -/
def demoTrendBars20 : List Bar :=
  [⟨100, 100, 100, 100, 0⟩, ⟨100, 100, 100, 100, 0⟩, ⟨100, 100, 100, 100, 0⟩,
   ⟨100, 100, 100, 100, 0⟩, ⟨100, 100, 100, 100, 0⟩, ⟨100, 103, 100, 102, 0⟩,
   ⟨100, 103, 100, 102, 0⟩, ⟨100, 103, 100, 102, 0⟩, ⟨100, 103, 100, 102, 0⟩,
   ⟨100, 103, 100, 102, 0⟩, ⟨100, 103, 100, 102, 0⟩, ⟨100, 103, 100, 102, 0⟩,
   ⟨100, 103, 100, 102, 0⟩, ⟨100, 103, 100, 102, 0⟩, ⟨100, 103, 100, 102, 0⟩,
   ⟨100, 103, 100, 102, 0⟩, ⟨100, 103, 100, 102, 0⟩, ⟨100, 103, 100, 102, 0⟩,
   ⟨100, 103, 100, 102, 0⟩, ⟨100, 103, 100, 102, 0⟩]

/-! ## `BacktestEngine.calculate_position_size` -/

/-- Python `c in s` membership on strings, written over the character list. -/
def strContains (s : String) (c : Char) : Bool := s.data.contains c

/-- Model of `BacktestEngine.calculate_position_size` (`src/cli/utils/backtesting_engine.py`,
lines 298-322).  `maxPositionConfig` is `risk.max_position_size` (a fraction
of equity when ≤ 1, else absolute dollars) and `totalValue` is
`portfolio.total_value`.  Dividing by a zero price raises in Python. -/
def btCalculatePositionSize (symbol : String)
    (maxPositionConfig totalValue price : ℚ) : Except PyExc ℚ :=
  let maxPositionValue :=
    if maxPositionConfig ≤ 1 then totalValue * maxPositionConfig
    else maxPositionConfig
  if price = 0 then .error .zeroDivision
  else
    let quantity := maxPositionValue / price
    let isCrypto := strContains symbol '/'
    if isCrypto then .ok (pyRound 8 quantity)
    else .ok (max 1 ((pyInt quantity : ℤ) : ℚ))

/-- The equity sizing rule as the spec words it: `max(min_qty, position_$ /
price)` with `min_qty = 1` and the share count truncated to an integer. -/
def specEquityShares (budget price : ℚ) : ℚ := max 1 ((pyInt (budget / price) : ℤ) : ℚ)

/-! ## `TechnicalAnalyzer._synthesize_signals` -/

/-- The `SignalType` enum from `src/cli/utils/technical_analyzer.py`. -/
inductive SignalType where
  | bullish
  | bearish
  | neutral
deriving DecidableEq, Repr

/-- The `TechnicalSignal` dataclass. -/
structure TechnicalSignal where
  indicator : String
  signal : SignalType
  confidence : ℚ
  value : Option ℚ := none
  reasoning : String := ""
deriving DecidableEq, Repr

/-- One iteration of the `_synthesize_signals` loop: add the signal's
confidence (its `weight`) to the bucket named by its direction, the running
triple being `(bullish_score, bearish_score, neutral_score)`. -/
def bucketStep (acc : ℚ × ℚ × ℚ) (s : TechnicalSignal) : ℚ × ℚ × ℚ :=
  match s.signal with
  | .bullish => (acc.1 + s.confidence, acc.2.1, acc.2.2)
  | .bearish => (acc.1, acc.2.1 + s.confidence, acc.2.2)
  | .neutral => (acc.1, acc.2.1, acc.2.2 + s.confidence)

/-- The bucket accumulation loop of `_synthesize_signals`. -/
def bucketScores (signals : List TechnicalSignal) : ℚ × ℚ × ℚ :=
  signals.foldl bucketStep (0, 0, 0)

/-- Three concrete signals: bullish 0.8, bearish 0.3, neutral 0.2. -/
def demoSignals : List TechnicalSignal :=
  [⟨"rsi", .bullish, 8/10, none, ""⟩, ⟨"trend", .bearish, 3/10, none, ""⟩,
   ⟨"volume", .neutral, 2/10, none, ""⟩]

/-- Model of `TechnicalAnalyzer._synthesize_signals` (`src/cli/utils/technical_analyzer.py`,
lines 323-360). -/
def synthesizeSignals (signals : List TechnicalSignal) : SignalType × ℚ :=
  if signals = [] then (.neutral, 0)
  else
    let scores := bucketScores signals
    let bullishScore := scores.1
    let bearishScore := scores.2.1
    let neutralScore := scores.2.2
    let totalScore := bullishScore + bearishScore + neutralScore
    if totalScore = 0 then (.neutral, 0)
    else if bullishScore > bearishScore ∧ bullishScore > neutralScore then
      (.bullish, bullishScore / totalScore)
    else if bearishScore > bullishScore ∧ bearishScore > neutralScore then
      (.bearish, bearishScore / totalScore)
    else (.neutral, neutralScore / totalScore)

/-! ## `SentimentAggregator.get_aggregated_sentiment` -/

/-- One source's summary as the aggregator consumes it (its
`overall_sentiment`, `sentiment_score` and `confidence` keys). -/
structure SourceSentiment where
  overallSentiment : String
  sentimentScore : ℚ
  confidence : ℚ
deriving DecidableEq, Repr

/-- The aggregated result dictionary (the numeric and label keys; the
`source_breakdown` echo of the inputs is omitted). -/
structure AggregatedSentiment where
  overallSentiment : String
  sentimentScore : ℚ
  confidence : ℚ
  sourcesUsed : List String
  agreementLevel : ℚ
deriving DecidableEq, Repr

/-- The count returned by `Counter(labels).most_common(1)`: the largest
multiplicity among the labels. -/
def maxLabelCount (labels : List String) : ℕ :=
  ((labels.map fun l => labels.count l).max?).getD 0

/-- Model of `SentimentAggregator.get_aggregated_sentiment`
(`src/ztrade/sentiment/aggregator.py`, lines 163-218).  The three per-source
network fetches are I/O: the embedding takes the sources that passed the
availability checks, in the fixed news/reddit/sec visit order, with each
source's summary, and models the aggregation applied to them.  `weights` is
the `self.weights` dictionary. -/
def getAggregatedSentiment (weights : String → ℚ)
    (contribs : List (String × SourceSentiment)) : AggregatedSentiment :=
  if contribs = [] then ⟨"neutral", 0, 0, [], 0⟩
  else
    let weightedScores := contribs.map fun p => p.2.sentimentScore * weights p.1
    let confidences := contribs.map fun p => p.2.confidence * weights p.1
    let sourcesUsed := contribs.map Prod.fst
    let totalWeightUsed := (sourcesUsed.map weights).sum
    let aggregatedScore :=
      if totalWeightUsed > 0 then weightedScores.sum / totalWeightUsed else 0
    let aggregatedConfidence :=
      if totalWeightUsed > 0 then confidences.sum / totalWeightUsed else 0
    let overallSentiment :=
      if aggregatedScore ≥ 5/100 then "positive"
      else if aggregatedScore ≤ -(5/100) then "negative"
      else "neutral"
    let sentimentsList := contribs.map fun p => p.2.overallSentiment
    let agreementLevel :=
      if sentimentsList.length > 0 then
        (maxLabelCount sentimentsList : ℚ) / (sentimentsList.length : ℚ)
      else 0
    ⟨overallSentiment, pyRound 3 aggregatedScore, pyRound 2 aggregatedConfidence,
      sourcesUsed, pyRound 2 agreementLevel⟩

/-- The `SentimentAggregator.DEFAULT_WEIGHTS` dictionary as a lookup function. -/
def defaultWeights : String → ℚ := fun src =>
  if src = "news" then 40/100
  else if src = "reddit" then 25/100
  else if src = "sec" then 25/100
  else if src = "stocktwits" then 10/100
  else 0

/-- Modelled from the spec: the per-source categorization used by the
sentiment analyzers (`ztrade.sentiment.news` / `reddit` / `sec`), whose
implementations are not under `src/`.  Spec §4.3: compound ≥ +0.05 →
positive, ≤ −0.05 → negative, else neutral. -/
def specCategorize (score : ℚ) : String :=
  if score ≥ 5/100 then "positive"
  else if score ≤ -(5/100) then "negative"
  else "neutral"

/-! ## `MarketDataStore` (`src/cli/utils/database.py`) -/

/-- One row of the `market_bars` table. -/
structure BarRow where
  symbol : String
  timestamp : ℤ
  timeframe : String
  openPrice : ℚ
  high : ℚ
  low : ℚ
  close : ℚ
  volume : ℤ
  vwap : Option ℚ := none
  tradeCount : Option ℤ := none
deriving DecidableEq, Repr

/-- The primary key `(symbol, timestamp, timeframe)` of a bar row. -/
def BarRow.key (r : BarRow) : String × ℤ × String := (r.symbol, r.timestamp, r.timeframe)

/-- The `DO UPDATE SET` clause of `insert_bar`: replace the non-key attributes
of `r` with those of the excluded row `b`. -/
def BarRow.updateAttrs (r b : BarRow) : BarRow :=
  { r with
    openPrice := b.openPrice
    high := b.high
    low := b.low
    close := b.close
    volume := b.volume
    vwap := b.vwap
    tradeCount := b.tradeCount }

/-- Whether the table holds a row with key `k`. -/
def containsKey (k : String × ℤ × String) (t : List BarRow) : Bool :=
  t.any fun r => decide (r.key = k)

/-- The row a query by primary key returns. -/
def findBar (k : String × ℤ × String) (t : List BarRow) : Option BarRow :=
  t.find? fun r => decide (r.key = k)

/-- Model of `MarketDataStore.insert_bar` (lines 43-80): `INSERT ... ON CONFLICT
(symbol, timestamp, timeframe) DO UPDATE SET` all attribute columns, modelled
as a pure transformer of the table state. -/
def insertBar (b : BarRow) (t : List BarRow) : List BarRow :=
  if containsKey b.key t then
    t.map fun r => if r.key = b.key then r.updateAttrs b else r
  else t ++ [b]

/-- One row of the bulk statement: `ON CONFLICT ... DO NOTHING` appends the
row only when its key is absent. -/
def bulkStep (acc : List BarRow) (b : BarRow) : List BarRow :=
  if containsKey b.key acc then acc else acc ++ [b]

/-- Model of `MarketDataStore.insert_bars_bulk` (lines 82-134): `INSERT ... ON CONFLICT
(symbol, timestamp, timeframe) DO NOTHING` over the batch, in order. -/
def insertBarsBulk (bs : List BarRow) (t : List BarRow) : List BarRow :=
  bs.foldl bulkStep t

/-- A concrete bar row. -/
def rowA : BarRow := ⟨"TSLA", 0, "15m", 100, 101, 99, 100, 1000, none, none⟩

/-- The same key as `rowA` with a different close. -/
def rowB : BarRow := ⟨"TSLA", 0, "15m", 100, 101, 99, 105, 1000, none, none⟩

/-! ## `BacktestPortfolio` (`src/cli/utils/backtesting_engine.py`) -/

/-- The `BacktestPosition` dataclass (the `entry_time` timestamp bookkeeping is
omitted; it is never read by `buy` / `sell` logic). -/
structure BacktestPosition where
  symbol : String
  quantity : ℚ
  entryPrice : ℚ
  currentPrice : ℚ
deriving DecidableEq, Repr

/-- One entry of `trade_history` (the numeric fields the record carries). -/
structure TradeRecord where
  action : String
  symbol : String
  quantity : ℚ
  price : ℚ
  pnl : Option ℚ := none
deriving DecidableEq, Repr

/-- The `BacktestPortfolio` dataclass: cash plus the `positions` dictionary
(as an association list with unique keys) and the trade history (the
`equity_curve` mark-to-market log is orthogonal to `buy` / `sell`). -/
structure BacktestPortfolio where
  initialCapital : ℚ
  cash : ℚ
  positions : List (String × BacktestPosition) := []
  tradeHistory : List TradeRecord := []
deriving DecidableEq, Repr

/-- Model of `BacktestPortfolio.can_buy`. -/
def BacktestPortfolio.canBuy (p : BacktestPortfolio) (price quantity : ℚ) : Prop :=
  p.cash ≥ price * quantity

instance (p : BacktestPortfolio) (price quantity : ℚ) :
    Decidable (p.canBuy price quantity) := by
  unfold BacktestPortfolio.canBuy
  infer_instance

/-- Model of `BacktestPortfolio.buy` (lines 81-125): returns the success flag and the
portfolio after the call. -/
def BacktestPortfolio.buy (p : BacktestPortfolio) (symbol : String)
    (price quantity : ℚ) : Bool × BacktestPortfolio :=
  let cost := price * quantity
  if ¬ p.canBuy price quantity then (false, p)
  else
    let positions :=
      match p.positions.find? (fun q => decide (q.1 = symbol)) with
      | some _ =>
          p.positions.map fun q =>
            if q.1 = symbol then
              let totalQuantity := q.2.quantity + quantity
              let totalCost := q.2.entryPrice * q.2.quantity + cost
              (q.1, { q.2 with
                      quantity := totalQuantity
                      entryPrice := totalCost / totalQuantity
                      currentPrice := price })
            else q
      | none => p.positions ++ [(symbol, ⟨symbol, quantity, price, price⟩)]
    (true, { p with
      cash := p.cash - cost
      positions := positions
      tradeHistory := p.tradeHistory ++ [⟨"buy", symbol, quantity, price, none⟩] })

/-- Model of `BacktestPortfolio.sell` (lines 127-171): returns the success flag and the
portfolio after the call. -/
def BacktestPortfolio.sell (p : BacktestPortfolio) (symbol : String)
    (price quantity : ℚ) : Bool × BacktestPortfolio :=
  match p.positions.find? (fun q => decide (q.1 = symbol)) with
  | none => (false, p)
  | some pos =>
    if pos.2.quantity < quantity then (false, p)
    else
      let proceeds := price * quantity
      let pnl := (price - pos.2.entryPrice) * quantity
      let positions :=
        if pos.2.quantity = quantity then
          p.positions.filter fun q => decide (q.1 ≠ symbol)
        else
          p.positions.map fun q =>
            if q.1 = symbol then
              (q.1, { q.2 with
                      quantity := q.2.quantity - quantity
                      currentPrice := price })
            else q
      (true, { p with
        cash := p.cash + proceeds
        positions := positions
        tradeHistory := p.tradeHistory ++ [⟨"sell", symbol, quantity, price, some pnl⟩] })

/-- One portfolio operation of a backtest run. -/
inductive TradeOp where
  | buy (symbol : String) (price quantity : ℚ)
  | sell (symbol : String) (price quantity : ℚ)
deriving DecidableEq, Repr

/-- Apply one operation, keeping the post-state (the flag is dropped). -/
def applyOp (p : BacktestPortfolio) : TradeOp → BacktestPortfolio
  | .buy s price q => (p.buy s price q).2
  | .sell s price q => (p.sell s price q).2

/-- Run a sequence of buy / sell operations. -/
def applyOps (p : BacktestPortfolio) (ops : List TradeOp) : BacktestPortfolio :=
  ops.foldl applyOp p

/-- An operation with a non-negative price and quantity, as produced by the
backtest loop (prices are bar closes, quantities come from position sizing). -/
def TradeOp.wellFormed : TradeOp → Prop
  | .buy _ price q => 0 ≤ price ∧ 0 ≤ q
  | .sell _ price q => 0 ≤ price ∧ 0 ≤ q

/-- A fresh simulated portfolio with 100 dollars of cash. -/
def demoPortfolio : BacktestPortfolio := ⟨100, 100, [], []⟩

/-! ## Helper lemmas -/

theorem technicalToScore_bullish : technicalToScore "bullish" = 1 := rfl

theorem technicalToScore_bearish : technicalToScore "bearish" = -1 := rfl

theorem technicalToScore_neutral : technicalToScore "neutral" = 0 := rfl

theorem pyInt_nonpos {q : ℚ} (h : q ≤ 0) : pyInt q ≤ 0 := by
  unfold pyInt
  split
  case isTrue h0 =>
    have hq : q = 0 := le_antisymm h h0
    simp [hq]
  case isFalse h0 =>
    have h1 : (0 : ℚ) ≤ -q := by linarith
    simpa using Int.floor_nonneg.2 h1

theorem bearishPrefixShift (x : String) :
    ∃ r, "Strong bearish signal: combined_score=" ++ x =
      "Strong bearish signal: " ++ r :=
  ⟨"combined_score=" ++ x, by
    rw [show ("Strong bearish signal: combined_score=" : String) =
      "Strong bearish signal: " ++ "combined_score=" from rfl, String.append_assoc]⟩

theorem max_one_pyInt {q : ℚ} (h : q < 1) : max 1 (pyInt q) = 1 := by
  apply max_eq_left
  unfold pyInt
  split
  case isTrue h0 =>
    have : ⌊q⌋ < (1 : ℤ) := Int.floor_lt.2 (by exact_mod_cast h)
    omega
  case isFalse h0 =>
    have h1 : (0 : ℚ) ≤ -q := by push_neg at h0; linarith
    have := Int.floor_nonneg.2 h1
    omega

/-! ## Claims about the algorithmic decision maker -/

/-- C1: for every `make_decision` call (with a nonzero price so that the buy
branch does not raise): a combined confidence below `min_confidence` yields a
hold with quantity 0; otherwise the result is a buy exactly when the combined
score strictly exceeds 0.3, and a combined score below −0.3 yields a hold with
quantity 0 whose rationale is bearish. -/
theorem C1_decision_rules (sw tw ss sc tc price : ℚ) (tech : String)
    (risk : RiskConfig) (hprice : price ≠ 0) :
    (sc * sw + tc * tw < risk.minConfidence →
      ∃ d, makeDecision sw tw ss sc tech tc price risk = .ok d ∧
        d.decision = "hold" ∧ d.quantity = 0) ∧
    (risk.minConfidence ≤ sc * sw + tc * tw →
      ((∃ d, makeDecision sw tw ss sc tech tc price risk = .ok d ∧
          d.decision = "buy") ↔
        BUY_THRESHOLD < ss * sw + technicalToScore tech * tw) ∧
      (ss * sw + technicalToScore tech * tw < SELL_THRESHOLD →
        ∃ d r, makeDecision sw tw ss sc tech tc price risk = .ok d ∧
          d.decision = "hold" ∧ d.quantity = 0 ∧
          d.rationale = "Strong bearish signal: " ++ r)) := by
  unfold makeDecision makeDecisionFromScore
  dsimp only
  by_cases h1 : sc * sw + tc * tw < risk.minConfidence
  · rw [if_pos h1]
    refine ⟨fun _ => ⟨_, rfl, rfl, rfl⟩, fun h2' => absurd h1 (not_lt.2 h2')⟩
  · rw [if_neg h1]
    by_cases h2 : ss * sw + technicalToScore tech * tw > BUY_THRESHOLD
    · rw [if_pos h2]
      refine ⟨fun hlt => absurd hlt h1, fun _ => ⟨?_, fun h3' => ?_⟩⟩
      · unfold calculatePositionSize
        rw [if_neg hprice]
        exact ⟨fun _ => h2, fun _ => ⟨_, rfl, rfl⟩⟩
      · exfalso
        unfold BUY_THRESHOLD at h2
        unfold SELL_THRESHOLD at h3'
        linarith
    · rw [if_neg h2]
      by_cases h3 : ss * sw + technicalToScore tech * tw < SELL_THRESHOLD
      · rw [if_pos h3]
        refine ⟨fun hlt => absurd hlt h1, fun _ => ⟨?_, fun _ => ?_⟩⟩
        · refine iff_of_false ?_ h2
          rintro ⟨d, hd, hdec⟩
          rw [Except.ok.injEq] at hd
          rw [← hd] at hdec
          simp only [Decision.mk.injEq] at hdec
          exact absurd hdec (by decide)
        · obtain ⟨r, hr⟩ := bearishPrefixShift
            (formatFixed 2 (ss * sw + technicalToScore tech * tw) ++
              (" (sentiment: " ++ (formatSigned2 ss ++ (", technical: " ++ (tech ++
                ("). Not entering position in bearish conditions. " ++
                  "Currently only trading long positions."))))))
          refine ⟨_, r, rfl, rfl, rfl, ?_⟩
          rw [← hr]
          simp only [String.append_assoc]
      · rw [if_neg h3]
        refine ⟨fun hlt => absurd hlt h1, fun _ => ⟨?_, fun h3' => absurd h3' h3⟩⟩
        refine iff_of_false ?_ h2
        rintro ⟨d, hd, hdec⟩
        rw [Except.ok.injEq] at hd
        rw [← hd] at hdec
        simp only [Decision.mk.injEq] at hdec
        exact absurd hdec (by decide)

/-- Witness for C1 at a concrete strongly bearish input. -/
theorem C1_decision_rules_witness :
    ∃ d r, makeDecision (6/10) (4/10) (-7/10) (8/10) "bearish" (7/10) 100
        defaultRisk = .ok d ∧
      d.decision = "hold" ∧ d.quantity = 0 ∧
      d.rationale = "Strong bearish signal: " ++ r :=
  ((C1_decision_rules (6/10) (4/10) (-7/10) (8/10) (7/10) 100 "bearish"
      defaultRisk (by norm_num)).2
    (by norm_num [defaultRisk])).2
    (by norm_num [technicalToScore_bearish, SELL_THRESHOLD])

/-- C2 counterexample: at the claimed input (sentiment 0.7 / conf 0.8,
technical bullish / conf 0.7, price 100, max position 5000) the code returns
quantity 37, not the claimed 50: the combined confidence 0.76 falls in the
≥ 0.75 band, so the budget is 75% of 5000 = 3750, and 3750 / 100 = 37.5
truncates to 37.  The repository's own test
`test_medium_confidence_uses_75_percent_position` asserts 37 for these
confidences. -/
theorem C2_quantity_counterexample :
    (makeDecision (6/10) (4/10) (7/10) (8/10) "bullish" (7/10) 100
        defaultRisk).map Decision.quantity = .ok 37 ∧ (37 : ℤ) ≠ 50 := by
  constructor
  · norm_num [makeDecision, makeDecisionFromScore, calculatePositionSize,
      positionBudget, technicalToScore_bullish, pyInt, BUY_THRESHOLD,
      CONFIDENCE_HIGH, CONFIDENCE_MEDIUM, defaultRisk, Except.map]
  · decide

/-- C2 amended: for sentiment 0.7 (conf 0.8), technical bullish (conf 0.7),
price 100.00, max position 5000, stop-loss fraction 0.03, min confidence
0.65, the decision is a buy of 37 shares (75% band) with stop-loss 97.00 and
confidence 0.76. -/
theorem C2_strong_bullish_equity :
    (makeDecision (6/10) (4/10) (7/10) (8/10) "bullish" (7/10) 100
        defaultRisk).map Decision.decision = .ok "buy" ∧
    (makeDecision (6/10) (4/10) (7/10) (8/10) "bullish" (7/10) 100
        defaultRisk).map Decision.quantity = .ok 37 ∧
    (makeDecision (6/10) (4/10) (7/10) (8/10) "bullish" (7/10) 100
        defaultRisk).map Decision.stopLoss = .ok (some 97) ∧
    (makeDecision (6/10) (4/10) (7/10) (8/10) "bullish" (7/10) 100
        defaultRisk).map Decision.confidence = .ok (76/100) := by
  refine ⟨?_, ?_, ?_, ?_⟩ <;>
    norm_num [makeDecision, makeDecisionFromScore, calculatePositionSize,
      positionBudget, technicalToScore_bullish, pyInt, pyRound, rhe,
      BUY_THRESHOLD, CONFIDENCE_HIGH, CONFIDENCE_MEDIUM, defaultRisk, Except.map]

/-- C5 counterexample: a negative current price on the buy path does not
raise a value error — it returns a buy of 1 share — and a zero price raises
a division-by-zero error, not a value error. -/
theorem C5_price_counterexample :
    (makeDecision (6/10) (4/10) (7/10) (8/10) "bullish" (7/10) (-100)
        defaultRisk).map (fun d => (d.decision, d.quantity)) = .ok ("buy", 1) ∧
    makeDecision (6/10) (4/10) (7/10) (8/10) "bullish" (7/10) 0 defaultRisk =
      .error PyExc.zeroDivision := by
  constructor <;>
    norm_num [makeDecision, makeDecisionFromScore, calculatePositionSize,
      positionBudget, technicalToScore_bullish, pyInt, BUY_THRESHOLD,
      CONFIDENCE_HIGH, CONFIDENCE_MEDIUM, defaultRisk, Except.map]

/-- C5 amended: on the buy path (confidence passing, combined score above the
buy threshold, non-negative max position size), a zero current price raises a
division-by-zero error — not a value error — while a negative current price
raises nothing and returns a buy of the forced minimum of 1 share. -/
theorem C5_nonpositive_price (sw tw ss sc tc : ℚ) (tech : String)
    (risk : RiskConfig)
    (hconf : risk.minConfidence ≤ sc * sw + tc * tw)
    (hscore : BUY_THRESHOLD < ss * sw + technicalToScore tech * tw)
    (hmps : 0 ≤ risk.maxPositionSize) :
    makeDecision sw tw ss sc tech tc 0 risk = .error PyExc.zeroDivision ∧
    ∀ price : ℚ, price < 0 →
      (makeDecision sw tw ss sc tech tc price risk).map
        (fun d => (d.decision, d.quantity)) = .ok ("buy", 1) := by
  have hnot : ¬ sc * sw + tc * tw < risk.minConfidence := not_lt.2 hconf
  constructor
  · unfold makeDecision makeDecisionFromScore
    dsimp only
    rw [if_neg hnot, if_pos hscore]
    unfold calculatePositionSize
    rw [if_pos rfl]
    rfl
  · intro price hp
    unfold makeDecision makeDecisionFromScore
    dsimp only
    rw [if_neg hnot, if_pos hscore]
    unfold calculatePositionSize
    rw [if_neg (ne_of_lt hp)]
    have hb : 0 ≤ positionBudget (sc * sw + tc * tw) risk.maxPositionSize := by
      unfold positionBudget
      split_ifs
      · exact hmps
      · exact mul_nonneg hmps (by norm_num)
      · exact mul_nonneg hmps (by norm_num)
    have hq : positionBudget (sc * sw + tc * tw) risk.maxPositionSize / price < 1 := by
      have : positionBudget (sc * sw + tc * tw) risk.maxPositionSize / price ≤ 0 := by
        rw [div_nonpos_iff]
        left
        exact ⟨hb, hp.le⟩
      linarith
    rw [max_one_pyInt hq]
    rfl

/-- Witness for C5 at the strong-bullish fixture with price −100. -/
theorem C5_nonpositive_price_witness :
    (makeDecision (6/10) (4/10) (7/10) (8/10) "bullish" (7/10) (-100)
        defaultRisk).map (fun d => (d.decision, d.quantity)) = .ok ("buy", 1) :=
  (C5_nonpositive_price (6/10) (4/10) (7/10) (8/10) (7/10) "bullish" defaultRisk
      (by norm_num [defaultRisk])
      (by norm_num [technicalToScore_bullish, BUY_THRESHOLD])
      (by norm_num [defaultRisk])).2 (-100) (by norm_num)

/-- C10: whenever the confidence-banded budget divided by the price is below
one share, the emitted quantity is forced up to 1 regardless of how large the
price is; concretely, at price 10000 with max position 5000 the decision is a
buy of 1 share whose notional 10000 strictly exceeds the 5000 cap. -/
theorem C10_minimum_share_exceeds_cap :
    (∀ conf price mps : ℚ, 0 < price → positionBudget conf mps / price < 1 →
      calculatePositionSize conf price mps = .ok 1) ∧
    (makeDecision (6/10) (4/10) (7/10) (8/10) "bullish" (7/10) 10000
        defaultRisk).map (fun d => (d.decision, d.quantity)) = .ok ("buy", 1) ∧
    defaultRisk.maxPositionSize < (1 : ℚ) * 10000 := by
  refine ⟨fun conf price mps hp hq => ?_, ?_, ?_⟩
  · unfold calculatePositionSize
    rw [if_neg (ne_of_gt hp)]
    rw [max_one_pyInt hq]
  · norm_num [makeDecision, makeDecisionFromScore, calculatePositionSize,
      positionBudget, technicalToScore_bullish, pyInt, BUY_THRESHOLD,
      CONFIDENCE_HIGH, CONFIDENCE_MEDIUM, defaultRisk, Except.map]
  · norm_num [defaultRisk]

/-- Witness for C10's universal clause at confidence 0.76, price 10000. -/
theorem C10_minimum_share_exceeds_cap_witness :
    calculatePositionSize (76/100) 10000 5000 = .ok 1 :=
  C10_minimum_share_exceeds_cap.1 (76/100) 10000 5000 (by norm_num)
    (by norm_num [positionBudget, CONFIDENCE_HIGH, CONFIDENCE_MEDIUM])

/-! ## Claims about trend analysis -/

/-- C3 counterexample: on ten bars stepping from 100 to 102, the market data
providers' `_analyze_trend` answers "sideways" (half comparison, ±2% strict
thresholds), while the computation the claim describes answers "bullish"
(quarter comparison, ±1% thresholds). -/
theorem C3_trend_counterexample :
    (providerAnalyzeTrend demoTrendBars).trend = "sideways" ∧
    (specTrendClaim demoTrendBars).trend = "bullish" ∧
    ("sideways" : String) ≠ "bullish" := by
  refine ⟨?_, ?_, by decide⟩ <;>
    norm_num [providerAnalyzeTrend, specTrendClaim, demoTrendBars, takeLast]

/-- C3 amended: only the backtest engine's trend analysis follows the
min(len,100)-bar quarter comparison with ±1% thresholds, with strength
`min(|pct|/5, 1)` for bullish / bearish labels but the constant 0.5 for
sideways (rounded to 2 decimals); the two market data providers' trend
analysis instead compares the means of the first and last five of the last
ten closes with ±2% thresholds. -/
theorem C3_trend_amended :
    (∀ bars : List Bar, 20 ≤ bars.length →
      (btAnalyzeTrend bars).trend = (specTrendClaim bars).trend ∧
      (btAnalyzeTrend bars).strength =
        pyRound 2 (if (specTrendClaim bars).trend = "sideways" then 1/2
          else (specTrendClaim bars).strength)) ∧
    (∀ bars : List Bar, 10 ≤ bars.length →
      (providerAnalyzeTrend bars).trend =
        (if halvesChangePct (bars.map Bar.close) > 2 then "bullish"
         else if halvesChangePct (bars.map Bar.close) < -2 then "bearish"
         else "sideways")) := by
  constructor
  · intro bars h
    unfold btAnalyzeTrend specTrendClaim takeLast
    rw [if_neg (not_lt.2 h)]
    simp only [List.length_map]
    split_ifs <;>
      first
        | exact ⟨rfl, rfl⟩
        | exact absurd (by assumption : ("bullish" : String) = "sideways") (by decide)
        | exact absurd (by assumption : ("bearish" : String) = "sideways") (by decide)
        | exact absurd rfl (by assumption : ¬ ("sideways" : String) = "sideways")
  · intro bars h
    unfold providerAnalyzeTrend halvesChangePct takeLast
    rw [if_neg (not_lt.2 h)]
    simp only [List.length_map]
    split_ifs <;> rfl

/-- Witness for C3 at the two concrete bar lists. -/
theorem C3_trend_amended_witness :
    ((btAnalyzeTrend demoTrendBars20).trend = (specTrendClaim demoTrendBars20).trend ∧
      (btAnalyzeTrend demoTrendBars20).strength =
        pyRound 2 (if (specTrendClaim demoTrendBars20).trend = "sideways" then 1/2
          else (specTrendClaim demoTrendBars20).strength)) ∧
    (providerAnalyzeTrend demoTrendBars).trend =
      (if halvesChangePct (demoTrendBars.map Bar.close) > 2 then "bullish"
       else if halvesChangePct (demoTrendBars.map Bar.close) < -2 then "bearish"
       else "sideways") :=
  ⟨C3_trend_amended.1 demoTrendBars20 (by decide),
   C3_trend_amended.2 demoTrendBars (by decide)⟩

/-! ## Claims about position sizing (C4) -/

theorem rhe_sub_abs_le (q : ℚ) : |(rhe q : ℚ) - q| ≤ 1/2 := by
  unfold rhe
  have h0 : (⌊q⌋ : ℚ) ≤ q := Int.floor_le q
  have h1 : q < ⌊q⌋ + 1 := Int.lt_floor_add_one q
  dsimp only
  split_ifs <;> rw [abs_le] <;> push_cast <;> constructor <;> linarith

theorem pyRound_sub_abs_le (nd : ℕ) (q : ℚ) :
    |pyRound nd q - q| ≤ 1 / (2 * 10 ^ nd) := by
  unfold pyRound
  have hpow : (0 : ℚ) < 10 ^ nd := by positivity
  have hq : (rhe (q * (10:ℚ) ^ nd) : ℚ) / (10:ℚ) ^ nd - q =
      ((rhe (q * (10:ℚ) ^ nd) : ℚ) - q * (10:ℚ) ^ nd) / (10:ℚ) ^ nd := by
    field_simp
    ring
  rw [hq, abs_div, abs_of_pos hpow,
    show (1:ℚ) / (2 * 10 ^ nd) = (1/2) / 10 ^ nd by ring]
  exact (div_le_div_iff_of_pos_right hpow).2 (rhe_sub_abs_le _)

/-- C4 counterexample: in the backtest engine, a crypto buy with budget 400
at price 10^11 yields quantity `round(4e-9, 8) = 0`, not the claimed minimum
of 1e-8: no crypto minimum is enforced. -/
theorem C4_crypto_counterexample :
    btCalculatePositionSize "BTC/USD" 400 0 (10 ^ 11) = .ok 0 ∧
    (0 : ℚ) ≠ 1 / 10 ^ 8 := by
  constructor
  · have hc : strContains "BTC/USD" '/' = true := rfl
    norm_num [btCalculatePositionSize, hc, pyRound, rhe]
  · norm_num

/-- C4 amended: for equity symbols both sizing routines emit
`max(1, int(budget / price))` — the spec's rule — where the backtest budget is
`max_position_size` itself (or that fraction of equity when ≤ 1) and the
decision maker's budget is the confidence band of `max_position_size`; for
crypto symbols (containing "/") only the backtest engine differs: it emits
`round(budget / price, 8)`, within 5·10⁻⁹ of the exact quotient, with no
1e-8 minimum (it can be 0, as the counterexample shows); the algorithmic
decision maker applies the integer rule to every symbol. -/
theorem C4_position_size_amended :
    (∀ (sym : String) (mpc total price : ℚ), price ≠ 0 →
      strContains sym '/' = false →
      btCalculatePositionSize sym mpc total price =
        .ok (specEquityShares (if mpc ≤ 1 then total * mpc else mpc) price)) ∧
    (∀ (sym : String) (mpc total price : ℚ), price ≠ 0 →
      strContains sym '/' = true →
      ∃ q, btCalculatePositionSize sym mpc total price = .ok q ∧
        |q - (if mpc ≤ 1 then total * mpc else mpc) / price| ≤ 1 / (2 * 10 ^ 8)) ∧
    (∀ conf price mps : ℚ, price ≠ 0 →
      (calculatePositionSize conf price mps).map (fun z => (z : ℚ)) =
        .ok (specEquityShares (positionBudget conf mps) price)) := by
  refine ⟨fun sym mpc total price hp hsym => ?_,
    fun sym mpc total price hp hsym => ?_, fun conf price mps hp => ?_⟩
  · unfold btCalculatePositionSize specEquityShares
    rw [if_neg hp, hsym]
    rfl
  · unfold btCalculatePositionSize
    rw [if_neg hp, hsym]
    exact ⟨_, rfl, pyRound_sub_abs_le 8 _⟩
  · unfold calculatePositionSize specEquityShares
    rw [if_neg hp]
    show Except.ok ((max 1 (pyInt (positionBudget conf mps / price)) : ℤ) : ℚ) = _
    rw [Except.ok.injEq]
    push_cast
    rfl

/-- Witness for C4 at an equity buy, the spec's crypto scenario, and the
decision maker's sizing. -/
theorem C4_position_size_amended_witness :
    btCalculatePositionSize "AAPL" 5000 0 100 =
      .ok (specEquityShares (if (5000:ℚ) ≤ 1 then 0 * 5000 else 5000) 100) ∧
    (∃ q, btCalculatePositionSize "BTC/USD" (5/100) 100000 60000 = .ok q ∧
      |q - (if (5/100:ℚ) ≤ 1 then 100000 * (5/100) else 5/100) / 60000| ≤
        1 / (2 * 10 ^ 8)) ∧
    (calculatePositionSize (76/100) 100 5000).map (fun z => (z : ℚ)) =
      .ok (specEquityShares (positionBudget (76/100) 5000) 100) :=
  ⟨C4_position_size_amended.1 "AAPL" 5000 0 100 (by norm_num) rfl,
   C4_position_size_amended.2.1 "BTC/USD" (5/100) 100000 60000 (by norm_num) rfl,
   C4_position_size_amended.2.2 (76/100) 100 5000 (by norm_num)⟩

/-! ## Claims about technical signal synthesis (C6) -/

theorem bucketStep_le (init : ℚ × ℚ × ℚ) (s : TechnicalSignal)
    (hs : 0 ≤ s.confidence) :
    init.1 ≤ (bucketStep init s).1 ∧ init.2.1 ≤ (bucketStep init s).2.1 ∧
      init.2.2 ≤ (bucketStep init s).2.2 := by
  unfold bucketStep
  rcases s.signal <;> dsimp only <;>
    exact ⟨by linarith, by linarith, by linarith⟩

theorem bucketScores_foldl_le (signals : List TechnicalSignal)
    (hnn : ∀ s ∈ signals, 0 ≤ s.confidence) (init : ℚ × ℚ × ℚ) :
    init.1 ≤ (signals.foldl bucketStep init).1 ∧
    init.2.1 ≤ (signals.foldl bucketStep init).2.1 ∧
    init.2.2 ≤ (signals.foldl bucketStep init).2.2 := by
  induction signals generalizing init with
  | nil => exact ⟨le_refl _, le_refl _, le_refl _⟩
  | cons s rest ih =>
    have hs : 0 ≤ s.confidence := hnn s (List.mem_cons_self s rest)
    have hrest : ∀ x ∈ rest, 0 ≤ x.confidence :=
      fun x hx => hnn x (List.mem_cons_of_mem _ hx)
    obtain ⟨a1, a2, a3⟩ := bucketStep_le init s hs
    obtain ⟨b1, b2, b3⟩ := ih hrest (bucketStep init s)
    exact ⟨a1.trans b1, a2.trans b2, a3.trans b3⟩

theorem bucketScores_nonneg (signals : List TechnicalSignal)
    (hnn : ∀ s ∈ signals, 0 ≤ s.confidence) :
    0 ≤ (bucketScores signals).1 ∧ 0 ≤ (bucketScores signals).2.1 ∧
      0 ≤ (bucketScores signals).2.2 :=
  bucketScores_foldl_le signals hnn (0, 0, 0)

/-- C6: signal synthesis sums confidences into bullish / bearish / neutral
buckets; a bucket with the strictly largest sum wins with confidence equal to
its sum over the total, ties (no strict winner) fall to neutral with the
neutral share, the empty list gives neutral with confidence 0, and the overall
confidence always lies in [0, 1]. -/
theorem C6_signal_synthesis (signals : List TechnicalSignal)
    (hnn : ∀ s ∈ signals, 0 ≤ s.confidence) :
    (signals = [] → synthesizeSignals signals = (.neutral, 0)) ∧
    ((bucketScores signals).1 > (bucketScores signals).2.1 ∧
        (bucketScores signals).1 > (bucketScores signals).2.2 →
      synthesizeSignals signals = (.bullish, (bucketScores signals).1 /
        ((bucketScores signals).1 + (bucketScores signals).2.1 +
          (bucketScores signals).2.2))) ∧
    ((bucketScores signals).2.1 > (bucketScores signals).1 ∧
        (bucketScores signals).2.1 > (bucketScores signals).2.2 →
      synthesizeSignals signals = (.bearish, (bucketScores signals).2.1 /
        ((bucketScores signals).1 + (bucketScores signals).2.1 +
          (bucketScores signals).2.2))) ∧
    (signals ≠ [] →
      ¬((bucketScores signals).1 > (bucketScores signals).2.1 ∧
        (bucketScores signals).1 > (bucketScores signals).2.2) →
      ¬((bucketScores signals).2.1 > (bucketScores signals).1 ∧
        (bucketScores signals).2.1 > (bucketScores signals).2.2) →
      synthesizeSignals signals = (.neutral,
        if (bucketScores signals).1 + (bucketScores signals).2.1 +
            (bucketScores signals).2.2 = 0 then 0
        else (bucketScores signals).2.2 /
          ((bucketScores signals).1 + (bucketScores signals).2.1 +
            (bucketScores signals).2.2))) ∧
    (0 ≤ (synthesizeSignals signals).2 ∧ (synthesizeSignals signals).2 ≤ 1) := by
  obtain ⟨hb, hbr, hn⟩ := bucketScores_nonneg signals hnn
  refine ⟨fun he => ?_, fun hw => ?_, fun hw => ?_, fun hne h1 h2 => ?_, ?_⟩
  · rw [synthesizeSignals, if_pos he]
  · have hbull : 0 < (bucketScores signals).1 := lt_of_le_of_lt hbr hw.1
    have htot : 0 < (bucketScores signals).1 + (bucketScores signals).2.1 +
        (bucketScores signals).2.2 := by linarith
    have hne : signals ≠ [] := by
      rintro rfl
      rw [show bucketScores [] = (0, 0, 0) from rfl] at hbull
      norm_num at hbull
    rw [synthesizeSignals, if_neg hne]
    dsimp only
    rw [if_neg (ne_of_gt htot), if_pos hw]
  · have hbear : 0 < (bucketScores signals).2.1 := lt_of_le_of_lt hb hw.1
    have htot : 0 < (bucketScores signals).1 + (bucketScores signals).2.1 +
        (bucketScores signals).2.2 := by linarith
    have hne : signals ≠ [] := by
      rintro rfl
      rw [show bucketScores [] = (0, 0, 0) from rfl] at hbear
      norm_num at hbear
    have hnw : ¬((bucketScores signals).1 > (bucketScores signals).2.1 ∧
        (bucketScores signals).1 > (bucketScores signals).2.2) := by
      rintro ⟨hx, _⟩
      exact absurd hw.1 (not_lt.2 hx.le)
    rw [synthesizeSignals, if_neg hne]
    dsimp only
    rw [if_neg (ne_of_gt htot), if_neg hnw, if_pos hw]
  · rw [synthesizeSignals, if_neg hne]
    dsimp only
    by_cases ht : (bucketScores signals).1 + (bucketScores signals).2.1 +
        (bucketScores signals).2.2 = 0
    · rw [if_pos ht, if_pos ht]
    · rw [if_neg ht, if_neg ht, if_neg h1, if_neg h2]
  · rw [synthesizeSignals]
    dsimp only
    split_ifs with h1 h2 h3 h4
    · exact ⟨le_refl 0, by norm_num⟩
    · exact ⟨le_refl 0, by norm_num⟩
    · have htot : 0 < (bucketScores signals).1 + (bucketScores signals).2.1 +
          (bucketScores signals).2.2 :=
        lt_of_le_of_ne (by linarith) (Ne.symm h2)
      exact ⟨div_nonneg hb htot.le, (div_le_one htot).2 (by linarith)⟩
    · have htot : 0 < (bucketScores signals).1 + (bucketScores signals).2.1 +
          (bucketScores signals).2.2 :=
        lt_of_le_of_ne (by linarith) (Ne.symm h2)
      exact ⟨div_nonneg hbr htot.le, (div_le_one htot).2 (by linarith)⟩
    · have htot : 0 < (bucketScores signals).1 + (bucketScores signals).2.1 +
          (bucketScores signals).2.2 :=
        lt_of_le_of_ne (by linarith) (Ne.symm h2)
      exact ⟨div_nonneg hn htot.le, (div_le_one htot).2 (by linarith)⟩

/-- Witness for C6 at the three concrete signals (bullish wins 0.8 / 1.3). -/
theorem C6_signal_synthesis_witness :
    synthesizeSignals demoSignals = (.bullish, (bucketScores demoSignals).1 /
      ((bucketScores demoSignals).1 + (bucketScores demoSignals).2.1 +
        (bucketScores demoSignals).2.2)) :=
  (C6_signal_synthesis demoSignals (by
      intro s hs
      simp only [demoSignals, List.mem_cons, List.not_mem_nil, or_false] at hs
      rcases hs with rfl | rfl | rfl <;> norm_num)).2.1
    (by constructor <;> norm_num [bucketScores, bucketStep, demoSignals])

/-! ## Claims about sentiment aggregation (C7) -/

/-- C7 counterexample: with the single source `news` reporting score 1/2500
(= 0.0004), the aggregator's output `sentiment_score` is `round(0.0004, 3) = 0`,
not the source's score. -/
theorem C7_rounding_counterexample :
    (getAggregatedSentiment defaultWeights
      [("news", ⟨"neutral", 1/2500, 1/2⟩)]).sentimentScore = 0 ∧
    (0 : ℚ) ≠ 1/2500 := by
  constructor
  · have hw : defaultWeights "news" = 40/100 := rfl
    simp only [getAggregatedSentiment, List.map_cons, List.map_nil,
      List.sum_cons, List.sum_nil, hw]
    norm_num [pyRound, rhe]
  · norm_num

/-- C7 amended: with exactly one contributing source of positive weight, the
output `sentiment_score` is that source's score rounded (half to even) to 3
decimals, and the output label equals the source's label whenever the source
labels by the spec's ±0.05 categorization of its own score; in general the
output score is `round(Σ w_s·score_s / W, 3)` when `W > 0`, and 0 when no
source contributes. -/
theorem C7_aggregation_amended :
    (∀ (w : String → ℚ) (src : String) (s : SourceSentiment), 0 < w src →
      (getAggregatedSentiment w [(src, s)]).sentimentScore =
        pyRound 3 s.sentimentScore ∧
      (s.overallSentiment = specCategorize s.sentimentScore →
        (getAggregatedSentiment w [(src, s)]).overallSentiment =
          s.overallSentiment)) ∧
    (∀ (w : String → ℚ) (contribs : List (String × SourceSentiment)),
      0 < ((contribs.map Prod.fst).map w).sum →
      (getAggregatedSentiment w contribs).sentimentScore =
        pyRound 3 ((contribs.map fun p => p.2.sentimentScore * w p.1).sum /
          ((contribs.map Prod.fst).map w).sum)) ∧
    (∀ w : String → ℚ, (getAggregatedSentiment w []).sentimentScore = 0) := by
  refine ⟨fun w src s hw => ?_, fun w contribs htot => ?_, fun w => rfl⟩
  · have hwne : w src ≠ 0 := ne_of_gt hw
    have hagg : (s.sentimentScore * w src + 0) / (w src + 0) = s.sentimentScore := by
      field_simp
    constructor
    · simp only [getAggregatedSentiment, List.map_cons, List.map_nil,
        List.sum_cons, List.sum_nil]
      rw [if_neg (by simp : ¬ (([(src, s)] : List (String × SourceSentiment)) = []))]
      rw [if_pos (by linarith : (0 : ℚ) < w src + 0), hagg]
    · intro hlab
      simp only [getAggregatedSentiment, List.map_cons, List.map_nil,
        List.sum_cons, List.sum_nil]
      rw [if_neg (by simp : ¬ (([(src, s)] : List (String × SourceSentiment)) = []))]
      rw [if_pos (by linarith : (0 : ℚ) < w src + 0), hagg, hlab]
      rfl
  · have hne : contribs ≠ [] := by
      rintro rfl
      norm_num at htot
    simp only [getAggregatedSentiment]
    rw [if_neg hne, if_pos htot]

/-- Witness for C7 at a single positive news source with score 0.7. -/
theorem C7_aggregation_amended_witness :
    (getAggregatedSentiment defaultWeights
        [("news", ⟨"positive", 7/10, 8/10⟩)]).sentimentScore =
      pyRound 3 (7/10) ∧
    ((⟨"positive", 7/10, 8/10⟩ : SourceSentiment).overallSentiment =
        specCategorize (7/10) →
      (getAggregatedSentiment defaultWeights
          [("news", ⟨"positive", 7/10, 8/10⟩)]).overallSentiment = "positive") :=
  C7_aggregation_amended.1 defaultWeights "news" ⟨"positive", 7/10, 8/10⟩
    (by rw [show defaultWeights "news" = 40/100 from rfl]; norm_num)

/-! ## Claims about the market data store (C8) -/

theorem updateAttrs_key (r b : BarRow) : (r.updateAttrs b).key = r.key := rfl

theorem updateAttrs_of_key_eq {r b : BarRow} (h : r.key = b.key) :
    r.updateAttrs b = b := by
  obtain ⟨h1, h2, h3⟩ : r.symbol = b.symbol ∧ r.timestamp = b.timestamp ∧
      r.timeframe = b.timeframe := by
    simpa [BarRow.key, Prod.ext_iff] using h
  cases b
  simp_all [BarRow.updateAttrs]

theorem containsKey_map_update (k : String × ℤ × String) (b : BarRow)
    (t : List BarRow) :
    containsKey k (t.map fun r => if r.key = b.key then r.updateAttrs b else r) =
      containsKey k t := by
  unfold containsKey
  induction t with
  | nil => rfl
  | cons r rest ih =>
    simp only [List.map_cons, List.any_cons, ih]
    congr 1
    by_cases hr : r.key = b.key
    · rw [if_pos hr, updateAttrs_key]
    · rw [if_neg hr]

theorem insertBar_idem (b : BarRow) (t : List BarRow) :
    insertBar b (insertBar b t) = insertBar b t := by
  by_cases hc : containsKey b.key t
  · unfold insertBar
    rw [if_pos hc, if_pos (by rw [containsKey_map_update]; exact hc), List.map_map]
    apply List.map_congr_left
    intro r _
    simp only [Function.comp_apply]
    by_cases hr : r.key = b.key
    · rw [if_pos hr,
        if_pos (show (r.updateAttrs b).key = b.key from by
          rw [updateAttrs_key]; exact hr)]
      exact rfl
    · rw [if_neg hr, if_neg hr]
  · unfold insertBar
    rw [if_neg hc]
    have hc2 : containsKey b.key (t ++ [b]) = true := by
      unfold containsKey
      rw [List.any_append]
      simp
    rw [if_pos hc2, List.map_append]
    have hmap : t.map (fun r => if r.key = b.key then r.updateAttrs b else r) = t := by
      have hall : ∀ r ∈ t, ¬ r.key = b.key := by
        intro r hr heq
        apply hc
        unfold containsKey
        rw [List.any_eq_true]
        exact ⟨r, hr, by simpa using heq⟩
      calc t.map (fun r => if r.key = b.key then r.updateAttrs b else r)
          = t.map id := List.map_congr_left (fun r hr => by rw [if_neg (hall r hr), id])
        _ = t := List.map_id t
    rw [hmap]
    simp [updateAttrs_of_key_eq rfl]

theorem containsKey_bulkStep (k : String × ℤ × String) (acc : List BarRow)
    (b : BarRow) (h : containsKey k acc = true) :
    containsKey k (bulkStep acc b) = true := by
  unfold bulkStep
  split_ifs with hb
  · exact h
  · unfold containsKey at *
    rw [List.any_append, h]
    rfl

theorem containsKey_bulkStep_self (acc : List BarRow) (b : BarRow) :
    containsKey b.key (bulkStep acc b) = true := by
  unfold bulkStep
  split_ifs with hb
  · exact hb
  · unfold containsKey
    rw [List.any_append]
    simp

theorem containsKey_foldl_bulkStep (k : String × ℤ × String) (bs : List BarRow)
    (acc : List BarRow) (h : containsKey k acc = true) :
    containsKey k (bs.foldl bulkStep acc) = true := by
  induction bs generalizing acc with
  | nil => exact h
  | cons x rest ih => exact ih (bulkStep acc x) (containsKey_bulkStep k acc x h)

theorem containsKey_insertBarsBulk (bs t : List BarRow) :
    ∀ b ∈ bs, containsKey b.key (insertBarsBulk bs t) = true := by
  induction bs generalizing t with
  | nil => intro b hb; cases hb
  | cons x rest ih =>
    intro b hb
    rcases List.mem_cons.1 hb with rfl | hb'
    · exact containsKey_foldl_bulkStep b.key rest (bulkStep t b)
        (containsKey_bulkStep_self t b)
    · exact ih (bulkStep t x) b hb'

theorem insertBarsBulk_noop (bs t : List BarRow)
    (h : ∀ b ∈ bs, containsKey b.key t = true) :
    insertBarsBulk bs t = t := by
  induction bs with
  | nil => rfl
  | cons x rest ih =>
    unfold insertBarsBulk at *
    rw [List.foldl_cons]
    have hx : bulkStep t x = t := by
      unfold bulkStep
      rw [if_pos (h x (List.mem_cons_self x rest))]
    rw [hx]
    exact ih fun b hb => h b (List.mem_cons_of_mem x hb)

theorem findBar_map_update (b : BarRow) (t : List BarRow)
    (hc : containsKey b.key t = true) :
    List.find? (fun r => decide (r.key = b.key))
      (t.map fun r => if r.key = b.key then r.updateAttrs b else r) = some b := by
  induction t with
  | nil => simp [containsKey] at hc
  | cons r rest ih =>
    by_cases hr : r.key = b.key
    · rw [List.map_cons, if_pos hr,
        List.find?_cons_of_pos _ (by simpa [updateAttrs_key] using hr),
        updateAttrs_of_key_eq hr]
    · have hc' : containsKey b.key rest = true := by
        unfold containsKey at hc ⊢
        rw [List.any_cons] at hc
        simpa [hr] using hc
      rw [List.map_cons, if_neg hr, List.find?_cons_of_neg _ (by simpa using hr)]
      exact ih hc'

/-- C8 counterexample: after a single-row upsert of `rowA`, a bulk upsert of
`rowB` — the same key with close 105 instead of 100 — leaves the stored row
unchanged: the bulk statement is `ON CONFLICT DO NOTHING`, it does not
replace. -/
theorem C8_bulk_counterexample :
    insertBarsBulk [rowB] (insertBar rowA []) = [rowA] ∧
    findBar rowA.key (insertBarsBulk [rowB] (insertBar rowA [])) = some rowA ∧
    rowA.close ≠ rowB.close := by
  refine ⟨rfl, rfl, by norm_num [rowA, rowB]⟩

/-- C8 amended: both upserts are idempotent on the key (repeating the same
row or batch is a no-op), and the single-row upsert replaces the stored
attributes — querying the key after `insert_bar b` returns exactly `b` — but
the bulk upsert is `DO NOTHING`: inserting a row whose key is already present
leaves the table unchanged. -/
theorem C8_upsert_semantics :
    (∀ (b : BarRow) (t : List BarRow),
      insertBar b (insertBar b t) = insertBar b t) ∧
    (∀ (bs t : List BarRow),
      insertBarsBulk bs (insertBarsBulk bs t) = insertBarsBulk bs t) ∧
    (∀ (b : BarRow) (t : List BarRow),
      findBar b.key (insertBar b t) = some b) ∧
    (∀ (b : BarRow) (t : List BarRow), containsKey b.key t = true →
      insertBarsBulk [b] t = t) := by
  refine ⟨insertBar_idem, fun bs t => ?_, fun b t => ?_, fun b t hc => ?_⟩
  · exact insertBarsBulk_noop bs (insertBarsBulk bs t) (containsKey_insertBarsBulk bs t)
  · unfold insertBar findBar
    by_cases hc : containsKey b.key t
    · rw [if_pos hc]
      exact findBar_map_update b t hc
    · rw [if_neg hc]
      have hall : ∀ r ∈ t, ¬ (fun r => decide (r.key = b.key)) r = true := by
        intro r hr heq
        apply hc
        unfold containsKey
        rw [List.any_eq_true]
        exact ⟨r, hr, heq⟩
      induction t with
      | nil => simp
      | cons r rest ih =>
        have hfalse : decide (r.key = b.key) = false := by
          simpa using hall r (List.mem_cons_self r rest)
        rw [List.cons_append]
        simp only [List.find?_cons, hfalse]
        refine ih (fun h => hc ?_) fun x hx => hall x (List.mem_cons_of_mem r hx)
        unfold containsKey at h ⊢
        rw [List.any_cons, h]
        simp
  · unfold insertBarsBulk
    rw [List.foldl_cons]
    unfold bulkStep
    rw [if_pos hc]
    rfl

theorem containsKey_insertBar_self (b : BarRow) (t : List BarRow) :
    containsKey b.key (insertBar b t) = true := by
  unfold insertBar
  by_cases hc : containsKey b.key t
  · rw [if_pos hc, containsKey_map_update]
    exact hc
  · rw [if_neg hc]
    unfold containsKey
    rw [List.any_append]
    simp

/-- Witness for C8's bulk no-op clause at `rowA`. -/
theorem C8_upsert_semantics_witness :
    insertBarsBulk [rowA] (insertBar rowA []) = insertBar rowA [] :=
  C8_upsert_semantics.2.2.2 rowA (insertBar rowA [])
    (containsKey_insertBar_self rowA [])

/-! ## Claims about the backtest portfolio (C9) -/

theorem applyOp_cash_nonneg (p : BacktestPortfolio) (op : TradeOp)
    (h : 0 ≤ p.cash) (hw : op.wellFormed) : 0 ≤ (applyOp p op).cash := by
  cases op with
  | buy s price q =>
    unfold applyOp BacktestPortfolio.buy
    dsimp only
    by_cases hc : p.canBuy price q
    · rw [if_neg (not_not_intro hc)]
      unfold BacktestPortfolio.canBuy at hc
      dsimp only
      linarith
    · rw [if_pos hc]
      exact h
  | sell s price q =>
    obtain ⟨hp, hq⟩ := hw
    unfold applyOp BacktestPortfolio.sell
    dsimp only
    split
    · exact h
    · split_ifs with hlt h2
      · exact h
      · dsimp only
        exact add_nonneg h (mul_nonneg hp hq)
      · dsimp only
        exact add_nonneg h (mul_nonneg hp hq)

/-- C9: starting from non-negative cash, any sequence of buys and sells with
non-negative prices and quantities keeps cash non-negative; a buy whose cost
exceeds cash returns `False` and leaves the portfolio unchanged; a sell of a
symbol with no position, or of more than the held quantity, returns `False`
and leaves the portfolio unchanged. -/
theorem C9_portfolio_invariants :
    (∀ (ops : List TradeOp) (p : BacktestPortfolio), 0 ≤ p.cash →
      (∀ op ∈ ops, op.wellFormed) → 0 ≤ (applyOps p ops).cash) ∧
    (∀ (p : BacktestPortfolio) (sym : String) (price qty : ℚ),
      p.cash < price * qty → p.buy sym price qty = (false, p)) ∧
    (∀ (p : BacktestPortfolio) (sym : String) (price qty : ℚ),
      p.positions.find? (fun q => decide (q.1 = sym)) = none →
      p.sell sym price qty = (false, p)) ∧
    (∀ (p : BacktestPortfolio) (sym : String) (price qty : ℚ)
        (pos : String × BacktestPosition),
      p.positions.find? (fun q => decide (q.1 = sym)) = some pos →
      pos.2.quantity < qty → p.sell sym price qty = (false, p)) := by
  refine ⟨?_, ?_, ?_, ?_⟩
  · intro ops
    induction ops with
    | nil => exact fun p h _ => h
    | cons op rest ih =>
      intro p h hw
      exact ih (applyOp p op)
        (applyOp_cash_nonneg p op h (hw op (List.mem_cons_self op rest)))
        (fun x hx => hw x (List.mem_cons_of_mem op hx))
  · intro p sym price qty h
    unfold BacktestPortfolio.buy
    dsimp only
    rw [if_pos (show ¬ p.canBuy price qty from by
      unfold BacktestPortfolio.canBuy; exact not_le.2 h)]
  · intro p sym price qty h
    unfold BacktestPortfolio.sell
    rw [h]
  · intro p sym price qty pos hfind hlt
    unfold BacktestPortfolio.sell
    rw [hfind]
    dsimp only
    rw [if_pos hlt]

/-- Witness for C9: a purchase costing 500 against 100 of cash is rejected
and the portfolio is unchanged. -/
theorem C9_portfolio_invariants_witness :
    demoPortfolio.buy "TSLA" 10 50 = (false, demoPortfolio) :=
  C9_portfolio_invariants.2.1 demoPortfolio "TSLA" 10 50
    (by norm_num [demoPortfolio])

end ZTrade
